import Mathlib

/-!
Verification development for the PocketLLM Ollama-compatible GPU bridge
(`scripts/ollama-gpu-bridge.py` and `scripts/ollama-gpu-bridge-v2.py`).

The Python code is shallowly embedded:
* Python `dict` (insertion-ordered, assignment updates a key in place) is an
  association list `List (String × α)` with `dictInsert`/`dictFind`.
* The models directory is a list of the file names it contains; `str(path)`
  of an entry is modelled by `mkPath`.
* `str.lower`, `str.replace` (single characters), `str.strip`, `str.rstrip`,
  substring tests, `Path.stem` and `Path.suffix` are modelled character-wise
  on `String.data` (ASCII, which is what model file names use).
* Wall-clock time in the persistent session's poll loop is modelled in tenths
  of seconds (`queue.get(timeout=0.1)` granularity): each poll event carries
  the value `time.time() - start_time` had when that iteration's checks ran.
-/

/-- Python `s.lower()` (ASCII), character-wise. -/
def lowerStr (s : String) : String :=
  ⟨s.data.map Char.toLower⟩

/-- Python `s.replace(a, b)` for single-character `a`, `b`. -/
def replaceChar (a b : Char) (s : String) : String :=
  ⟨s.data.map (fun c => if c = a then b else c)⟩

/-- Python whitespace as recognised by `str.strip` (ASCII range). -/
def isPyWhitespace (c : Char) : Bool :=
  c = ' ' || c = '\t' || c = '\n' || c = '\r' || c = '\x0b' || c = '\x0c'

/-- Python `s.strip()`. -/
def stripStr (s : String) : String :=
  ⟨((s.data.dropWhile isPyWhitespace).reverse.dropWhile isPyWhitespace).reverse⟩

/-- Python `s.rstrip()`. -/
def rstripStr (s : String) : String :=
  ⟨(s.data.reverse.dropWhile isPyWhitespace).reverse⟩

/-- Python `s.startswith(p)`. -/
def startsWithStr (s p : String) : Bool :=
  p.data.isPrefixOf s.data

/-- Python `s.endswith(p)` (used to model the `*.gguf` glob). -/
def endsWithStr (s p : String) : Bool :=
  p.data.isSuffixOf s.data

/-- Boolean contiguous-sublist test on character lists. -/
def listInfix : List Char → List Char → Bool
  | l₁, [] => l₁.isEmpty
  | l₁, l₂@(_ :: t) => l₁.isPrefixOf l₂ || listInfix l₁ t

/-- Python `needle in hay` on strings: substring test. -/
def strContains (hay needle : String) : Bool :=
  listInfix needle.data hay.data

/-- Python `"\n".join(lines)`. -/
def joinLines : List String → String
  | [] => ""
  | [l] => l
  | l :: rest => l ++ "\n" ++ joinLines rest

/-- Split a REVERSED character list at its first `'.'`; returns
`(charsBeforeTheDot, charsAfterTheDot)`, i.e. on the original string the
reversed last suffix and the reversed part before the last dot. -/
def revSplitDot : List Char → Option (List Char × List Char)
  | [] => none
  | c :: rest =>
    if c = '.' then some ([], rest)
    else
      match revSplitDot rest with
      | some (a, b) => some (c :: a, b)
      | none => none

/-- Python `Path(s).stem`: the name without its last suffix; a name whose only
dot is leading, or whose dot is final, has no suffix. -/
def pathStem (s : String) : String :=
  match revSplitDot s.data.reverse with
  | some (sufRev, stemRev) =>
    if stemRev ≠ [] ∧ sufRev ≠ [] then ⟨stemRev.reverse⟩ else s
  | none => s

/-- Python `Path(s).suffix` (empty when there is none). -/
def pathSuffix (s : String) : String :=
  match revSplitDot s.data.reverse with
  | some (sufRev, stemRev) =>
    if stemRev ≠ [] ∧ sufRev ≠ [] then ⟨'.' :: sufRev.reverse⟩ else ""
  | none => ""

/-- Python `s.split(":")[0]`. -/
def takeBeforeColon (s : String) : String :=
  ⟨s.data.takeWhile (fun c => c ≠ ':')⟩

/-- Lookup in an insertion-ordered dictionary (Python `d[k]` / `k in d`). -/
def dictFind {α : Type} : List (String × α) → String → Option α
  | [], _ => none
  | (k', v) :: rest, k => if k' = k then some v else dictFind rest k

/-- Python `d[k] = v`: update in place if the key exists (keeping its
position in iteration order), else append at the end. -/
def dictInsert {α : Type} (k : String) (v : α) : List (String × α) → List (String × α)
  | [] => [(k, v)]
  | (k', v') :: rest =>
    if k' = k then (k', v) :: rest else (k', v') :: dictInsert k v rest

/-- A sequence of Python dict assignments `d[k] = v` for `k` in `keys`. -/
def insertAll {α : Type} (v : α) (keys : List String) (r : List (String × α)) : List (String × α) :=
  keys.foldl (fun r k => dictInsert k v r) r

/-- The model registry: alias → path, in Python-dict iteration order. -/
abbrev Registry := List (String × String)

/-- `MODELS_DIR` of the bridge (`~/PocketLLM/models`). -/
def MODELS_DIR_STR : String := "~/PocketLLM/models"

/-- `str(model_file)` for a file of the models directory. -/
def mkPath (filename : String) : String :=
  MODELS_DIR_STR ++ "/" ++ filename

/-- The nested size `if/elif` chain inside the `llama3` block of
`scan_models` (ollama-gpu-bridge.py lines 235-241). -/
def llama3SizeAliases (sl : String) : List String :=
  if strContains sl "1b" then ["llama3:1b", "llama3.2:1b"]
  else if strContains sl "3b" then ["llama3:3b"]
  else if strContains sl "7b" || strContains sl "8b" then ["llama3:8b"]
  else []

/-- The family-specific Ollama-style aliases `scan_models` registers for a
file with lowercase stem `sl` (ollama-gpu-bridge.py lines 219-258), in
assignment order. -/
def familyAliases (sl : String) : List String :=
  (if strContains sl "tinyllama" then
     ["tinyllama", "tinyllama:latest", "tinyllama:1b", "tinyllama:1.1b"]
   else []) ++
  (if strContains sl "llama" && strContains sl "3.2" then
     ["llama3.2:1b", "llama3.2", "llama3:latest", "llama3"]
   else []) ++
  (if strContains sl "llama3" then
     ["llama3", "llama3:latest"] ++ llama3SizeAliases sl
   else []) ++
  (if strContains sl "phi" then ["phi3:mini", "phi3:latest", "phi3", "phi"] else []) ++
  (if strContains sl "gemma" then ["gemma:2b", "gemma:latest", "gemma"] else []) ++
  (if strContains sl "qwen" then ["qwen:1.8b", "qwen:latest", "qwen:1.5b", "qwen"] else [])

/-- All aliases `scan_models` assigns for one file, in assignment order:
filename, stem, lowercase stem, separator-normalised "simple name", then the
family aliases. -/
def aliasKeys (filename : String) : List String :=
  let stem := pathStem filename
  let sl := lowerStr stem
  let simpleName := replaceChar '.' '_' (replaceChar '-' '_' sl)
  filename :: stem :: sl :: simpleName :: familyAliases sl

/-- The body of `scan_models`'s per-file loop: register every alias of
`filename`, each mapping to `str(model_file)`. -/
def registerFile (r : Registry) (filename : String) : Registry :=
  insertAll (mkPath filename) (aliasKeys filename) r

/-- `scan_models()` of ollama-gpu-bridge.py (lines 191-260): reset the
registry to `{}`, then register every `*.gguf` file of the models directory
in directory iteration order.  The pre-scan registry `old` is taken as an
argument to model the global `MODEL_REGISTRY` it replaces; the code ignores
it (`MODEL_REGISTRY = {}`). -/
def scan_models (_old : Registry) (dir : List String) : Registry :=
  (dir.filter (fun f => endsWithStr f ".gguf")).foldl registerFile []

/-- The v2 variant of the `llama3` block (ollama-gpu-bridge-v2.py lines
110-115): only the `1b` case, no `elif`s. -/
def llama3SizeAliasesV2 (sl : String) : List String :=
  if strContains sl "1b" then ["llama3:1b", "llama3.2:1b"] else []

/-- Family aliases of `scan_models` in ollama-gpu-bridge-v2.py (lines 97-132). -/
def familyAliasesV2 (sl : String) : List String :=
  (if strContains sl "tinyllama" then
     ["tinyllama", "tinyllama:latest", "tinyllama:1b", "tinyllama:1.1b"]
   else []) ++
  (if strContains sl "llama" && strContains sl "3.2" then
     ["llama3.2:1b", "llama3.2", "llama3:latest", "llama3"]
   else []) ++
  (if strContains sl "llama3" then
     ["llama3", "llama3:latest"] ++ llama3SizeAliasesV2 sl
   else []) ++
  (if strContains sl "phi" then ["phi3:mini", "phi3:latest", "phi3", "phi"] else []) ++
  (if strContains sl "gemma" then ["gemma:2b", "gemma:latest", "gemma"] else []) ++
  (if strContains sl "qwen" then ["qwen:1.8b", "qwen:latest", "qwen:1.5b", "qwen"] else [])

/-- Aliases per file in the v2 scan. -/
def aliasKeysV2 (filename : String) : List String :=
  let stem := pathStem filename
  let sl := lowerStr stem
  let simpleName := replaceChar '.' '_' (replaceChar '-' '_' sl)
  filename :: stem :: sl :: simpleName :: familyAliasesV2 sl

/-- Per-file registration of the v2 scan. -/
def registerFileV2 (r : Registry) (filename : String) : Registry :=
  insertAll (mkPath filename) (aliasKeysV2 filename) r

/-- `scan_models()` of ollama-gpu-bridge-v2.py (lines 73-134). -/
def scan_models_v2 (_old : Registry) (dir : List String) : Registry :=
  (dir.filter (fun f => endsWithStr f ".gguf")).foldl registerFileV2 []

/-- The `if not MODEL_REGISTRY: scan_models()` prologue of `get_model_path`:
the registry actually consulted by the resolution rules. -/
def effReg (dir : List String) (reg : Registry) : Registry :=
  if reg = [] then scan_models reg dir else reg

/-- The `for variant in variations` loop of `get_model_path`: each variant
tried exact, then lowercased. -/
def tryVariations (r : Registry) : List String → Option String
  | [] => none
  | v :: rest =>
    match dictFind r v with
    | some p => some p
    | none =>
      match dictFind r (lowerStr v) with
      | some p => some p
      | none => tryVariations r rest

/-- The `for key, path in MODEL_REGISTRY.items()` partial-match loop of
`get_model_path`: bidirectional substring match, first hit in iteration
order wins. -/
def partialMatchLoop (name : String) : Registry → Option String
  | [] => none
  | (k, p) :: rest =>
    if strContains (lowerStr k) (lowerStr name) || strContains (lowerStr name) (lowerStr k) then
      some p
    else partialMatchLoop name rest

/-- The four space/dash/underscore transforms of the input tried by rule 3. -/
def nameVariations (name : String) : List String :=
  [replaceChar ' ' '-' name, replaceChar ' ' '_' name,
   replaceChar '-' '_' name, replaceChar '_' '-' name]

/-- `get_model_path(model_name)` (identical in ollama-gpu-bridge.py lines
264-322 and ollama-gpu-bridge-v2.py lines 136-191), translated with the same
early-return structure as the source.  `dir` is the contents of the models
directory (also used by the final literal-filename checks). -/
def get_model_path (dir : List String) (reg : Registry) (name : String) : Option String :=
  let r := effReg dir reg
  match dictFind r name with
  | some p => some p
  | none =>
    match dictFind r (lowerStr name) with
    | some p => some p
    | none =>
      match tryVariations r (nameVariations name) with
      | some p => some p
      | none =>
        match (if strContains name ":" then
                 match dictFind r (takeBeforeColon name) with
                 | some p => some p
                 | none => dictFind r (takeBeforeColon name ++ ":latest")
               else none) with
        | some p => some p
        | none =>
          match partialMatchLoop name r with
          | some p => some p
          | none =>
            if dir.contains name && pathSuffix name == ".gguf" then some (mkPath name)
            else if dir.contains (name ++ ".gguf") then some (mkPath (name ++ ".gguf"))
            else none

/-- Resolution rule 1: exact alias match. -/
def rule1 (r : Registry) (name : String) : Option String :=
  dictFind r name

/-- Resolution rule 2: lowercase alias match. -/
def rule2 (r : Registry) (name : String) : Option String :=
  dictFind r (lowerStr name)

/-- Resolution rule 3: separator transforms, each exact then lowercase. -/
def rule3 (r : Registry) (name : String) : Option String :=
  tryVariations r (nameVariations name)

/-- Resolution rule 4: for names with a `:` tag, the base name then
`base:latest`. -/
def rule4 (r : Registry) (name : String) : Option String :=
  if strContains name ":" then
    match dictFind r (takeBeforeColon name) with
    | some p => some p
    | none => dictFind r (takeBeforeColon name ++ ":latest")
  else none

/-- Resolution rule 5: bidirectional substring match over every registered
alias. -/
def rule5 (r : Registry) (name : String) : Option String :=
  partialMatchLoop name r

/-- Resolution rule 6: the name as a literal filename in the models
directory, as-is (requiring the `.gguf` suffix) or with `.gguf` appended. -/
def rule6 (dir : List String) (name : String) : Option String :=
  if dir.contains name && pathSuffix name == ".gguf" then some (mkPath name)
  else if dir.contains (name ++ ".gguf") then some (mkPath (name ++ ".gguf"))
  else none

/-- An active persistent session (the parts of `LlamaCppSession` visible to
`get_or_create_session`): the resolved model path and whether `start()` ran,
i.e. a child process was launched. -/
structure SessionInfo where
  modelPath : String
  started : Bool
deriving DecidableEq

/-- The global `ACTIVE_SESSIONS` table, keyed by the requested model name. -/
abbrev SessionTable := List (String × SessionInfo)

/-- `get_or_create_session(model_name)` (ollama-gpu-bridge.py lines 324-335):
resolve the name; on failure return `None` leaving the table untouched;
otherwise create-and-start a session on first use and return it together
with the updated table. -/
def get_or_create_session (dir : List String) (reg : Registry) (tbl : SessionTable)
    (name : String) : Option SessionInfo × SessionTable :=
  match get_model_path dir reg name with
  | none => (none, tbl)
  | some p =>
    match dictFind tbl name with
    | some s => (some s, tbl)
    | none =>
      let s : SessionInfo := { modelPath := p, started := true }
      (some s, dictInsert name s tbl)

/-- Whether `run_llama_generation`'s `subprocess.Popen` call succeeded or
raised (binary missing, permission denied, invalid path, ...); on failure the
exception's message. -/
inductive LaunchResult
  | ok
  | failure (msg : String)
deriving DecidableEq

/-- A line is kept unless it is an internal diagnostic banner
(`system_info:` / `main:` fixed-prefix match). -/
def keepLine (l : String) : Bool :=
  !(startsWithStr l "system_info:") && !(startsWithStr l "main:")

/-- The `for line in iter(process.stdout.readline, '')` loop of
`run_llama_generation` (ollama-gpu-bridge-v2.py lines 236-245) over the raw
`readline` results (each including its trailing newline, so a blank child
line arrives as `"\n"`; `readline` returns `""` only at end of stream,
which stops the iteration, so the `if line:` truthiness guard — here
`if l = ""` — never fires on a real line): returns the chunks yielded in
streaming mode and the accumulated `full_response` list.  A blank line is
truthy, is `rstrip`ped to `""`, passes both banner checks, and is kept:
appended as `""` and yielded as `"\n"`. -/
def oneShotProcess : List String → List String × List String
  | [] => ([], [])
  | l :: rest =>
    if l = "" then oneShotProcess rest
    else
      let l2 := rstripStr l
      if keepLine l2 then
        let tail := oneShotProcess rest
        ((l2 ++ "\n") :: tail.1, l2 :: tail.2)
      else oneShotProcess rest

/-- `run_llama_generation` (ollama-gpu-bridge-v2.py lines 193-262) as the
sequence of chunks its generator yields.  `outLines` are the successive raw
`readline` results from the child's stdout (newline-terminated except
possibly the last; never `""`, the EOF sentinel), `exitCode` its exit
status (only logged by the source, line 255), and a launch failure yields
the single in-band `Error:` chunk of the `except` clause. -/
def run_llama_generation (launch : LaunchResult) (outLines : List String)
    (_exitCode : Int) (stream : Bool) : List String :=
  match launch with
  | LaunchResult.failure msg => ["Error: " ++ msg]
  | LaunchResult.ok =>
    let res := oneShotProcess outLines
    if stream then res.1 else [joinLines res.2]

/-- The yielded stream described by the spec: arrival order, one pass, only
diagnostic banners dropped (by fixed prefix match on the `rstrip`ped line),
each kept line — blank lines included — emitted with a newline. -/
def streamedOf (outLines : List String) : List String :=
  ((outLines.map rstripStr).filter keepLine).map (fun l => l ++ "\n")

/-- Outcome of the v2 `chat` route for the purposes of resolution errors:
either the 404 not-found reply, or a generation run over the one-shot
runner's chunks. -/
inductive ChatOutcome
  | notFound
  | ran (chunks : List String)
deriving DecidableEq

/-- The model-resolution skeleton of `chat` (ollama-gpu-bridge-v2.py lines
387-390 and 416-418): resolve first, answer 404 on failure, otherwise run
the one-shot generation. -/
def chatRespond (dir : List String) (reg : Registry) (name : String)
    (launch : LaunchResult) (outLines : List String) (exitCode : Int)
    (stream : Bool) : ChatOutcome :=
  match get_model_path dir reg name with
  | none => ChatOutcome.notFound
  | some _ => ChatOutcome.ran (run_llama_generation launch outLines exitCode stream)

/-- Result of the `/api/pull` route. -/
inductive PullOutcome
  | success
  | notFound
deriving DecidableEq

/-- `pull_model` (ollama-gpu-bridge.py lines 598-621, identically
ollama-gpu-bridge-v2.py lines 559-580): names containing `embed` or `minilm`
(lowercased) succeed unconditionally before any resolution; all other names
succeed exactly when `get_model_path` resolves them. -/
def pull_model (dir : List String) (reg : Registry) (name : String) : PullOutcome :=
  if strContains (lowerStr name) "embed" || strContains (lowerStr name) "minilm" then
    PullOutcome.success
  else
    match get_model_path dir reg name with
    | some _ => PullOutcome.success
    | none => PullOutcome.notFound

/-- One poll of the output queue in `LlamaCppSession.generate`: either
`queue.get(timeout=0.1)` returned a line (already `rstrip`ped by the reader
thread) or it raised `queue.Empty`. -/
inductive PollEvent
  | line (s : String)
  | timeout
deriving DecidableEq

/-- The mutable state of `generate`'s poll loop: `response_lines` and
`empty_line_count`. -/
structure GenState where
  lines : List String
  emptyCount : Nat
deriving DecidableEq

/-- One iteration of the `while True` poll loop of `LlamaCppSession.generate`
(ollama-gpu-bridge.py lines 151-179).  `t` is `time.time() - start_time` in
tenths of seconds when this iteration's checks run.  Returns the next state
and whether the loop `break`s:
* a line equal to the echoed prompt (after `strip`) is skipped (`continue`,
  which also skips the 30-second check);
* an empty line increments `empty_line_count` and breaks once that count
  exceeds 2;
* any other line resets the count and is appended to `response_lines`;
* a non-skipped line also breaks when more than 30 s (300 tenths) elapsed;
* an empty poll breaks only when at least one line was collected and more
  than 2 s (20 tenths) elapsed. -/
def stepEvent (prompt : String) (st : GenState) (ev : PollEvent) (t : Nat) :
    GenState × Bool :=
  match ev with
  | PollEvent.line s =>
    if stripStr s = stripStr prompt then (st, false)
    else if s = "" then
      let st' : GenState := { st with emptyCount := st.emptyCount + 1 }
      if 2 < st'.emptyCount then (st', true)
      else if 300 < t then (st', true)
      else (st', false)
    else
      let st' : GenState := { lines := st.lines ++ [s], emptyCount := 0 }
      if 300 < t then (st', true) else (st', false)
  | PollEvent.timeout =>
    if st.lines ≠ [] ∧ 20 < t then (st, true) else (st, false)

/-- Run the poll loop over a (timed) sequence of queue events; returns the
state at exit and whether the loop actually `break`ed (rather than running
out of supplied events, which stands for a still-running loop). -/
def runPoll (prompt : String) : GenState → List (PollEvent × Nat) → GenState × Bool
  | st, [] => (st, false)
  | st, (ev, t) :: rest =>
    match stepEvent prompt st ev t with
    | (st', true) => (st', true)
    | (st', false) => runPoll prompt st' rest

/-- The `response_lines` collected by `LlamaCppSession.generate` for a given
event sequence (started from the empty state, as after the pre-write queue
flush). -/
def generateLines (prompt : String) (events : List (PollEvent × Nat)) : List String :=
  (runPoll prompt { lines := [], emptyCount := 0 } events).1.lines

/-- What `generate` yields: each collected line plus a newline when
streaming, else the single `"\n".join(response_lines)` chunk. -/
def generateYields (prompt : String) (stream : Bool)
    (events : List (PollEvent × Nat)) : List String :=
  if stream then (generateLines prompt events).map (fun l => l ++ "\n")
  else [joinLines (generateLines prompt events)]

/-- The queue trace of the spec's persistent-session scenario: the lines
`["Hi", "", "", "there"]` arriving promptly (at 0.1 s intervals), then a
3-second silence (empty polls at 0.1 s intervals). -/
def scenarioTrace : List (PollEvent × Nat) :=
  [(PollEvent.line "Hi", 1), (PollEvent.line "", 2),
   (PollEvent.line "", 3), (PollEvent.line "there", 4)] ++
  (List.range 30).map (fun k => (PollEvent.timeout, 5 + k))

/-- An output queue that stays empty forever (child produces no output),
sampled for 40 seconds: 400 empty polls at 0.1 s intervals. -/
def silentTrace : List (PollEvent × Nat) :=
  (List.range 400).map (fun k => (PollEvent.timeout, k + 1))

theorem get_model_path_eq (dir : List String) (reg : Registry) (name : String) :
    get_model_path dir reg name =
      (rule1 (effReg dir reg) name <|> rule2 (effReg dir reg) name <|>
       rule3 (effReg dir reg) name <|> rule4 (effReg dir reg) name <|>
       rule5 (effReg dir reg) name <|> rule6 dir name) := by
  simp only [get_model_path, rule1, rule2, rule3, rule4, rule5, rule6]
  cases h1 : dictFind (effReg dir reg) name <;>
    simp only [h1, Option.some_orElse, Option.none_orElse]
  cases h2 : dictFind (effReg dir reg) (lowerStr name) <;>
    simp only [h2, Option.some_orElse, Option.none_orElse]
  cases h3 : tryVariations (effReg dir reg) (nameVariations name) <;>
    simp only [h3, Option.some_orElse, Option.none_orElse]
  cases h4 : (if strContains name ":" then
                match dictFind (effReg dir reg) (takeBeforeColon name) with
                | some p => some p
                | none => dictFind (effReg dir reg) (takeBeforeColon name ++ ":latest")
              else none) <;>
    simp only [h4, Option.some_orElse, Option.none_orElse]
  cases h5 : partialMatchLoop name (effReg dir reg) <;>
    simp only [h5, Option.some_orElse, Option.none_orElse]

theorem dictFind_insert_self {α : Type} (k : String) (v : α) (r : List (String × α)) :
    dictFind (dictInsert k v r) k = some v := by
  induction r with
  | nil => simp [dictInsert, dictFind]
  | cons h t ih =>
    obtain ⟨k', v'⟩ := h
    by_cases hk : k' = k
    · subst hk; simp [dictInsert, dictFind]
    · simp [dictInsert, dictFind, hk, ih]

theorem dictFind_insert_ne {α : Type} {k k' : String} (v : α) (r : List (String × α))
    (h : k ≠ k') : dictFind (dictInsert k v r) k' = dictFind r k' := by
  induction r with
  | nil => simp [dictInsert, dictFind, h]
  | cons hd t ih =>
    obtain ⟨k₀, v₀⟩ := hd
    by_cases hk : k₀ = k
    · subst hk; simp [dictInsert, dictFind, h]
    · simp [dictInsert, dictFind, hk, ih]

theorem dictFind_insertAll_not_mem {α : Type} (v : α) (keys : List String)
    (r : List (String × α)) (k : String) (hk : k ∉ keys) :
    dictFind (insertAll v keys r) k = dictFind r k := by
  induction keys generalizing r with
  | nil => rfl
  | cons k0 rest ih =>
    have h0 : k0 ≠ k := fun he => hk (he ▸ List.mem_cons_self _ _)
    have h1 : k ∉ rest := fun hm => hk (List.mem_cons_of_mem _ hm)
    calc dictFind (insertAll v (k0 :: rest) r) k
        = dictFind (insertAll v rest (dictInsert k0 v r)) k := rfl
      _ = dictFind (dictInsert k0 v r) k := ih (dictInsert k0 v r) h1
      _ = dictFind r k := dictFind_insert_ne v r h0

theorem dictFind_insertAll_mem {α : Type} (v : α) (keys : List String)
    (r : List (String × α)) (k : String) (hk : k ∈ keys) :
    dictFind (insertAll v keys r) k = some v := by
  induction keys generalizing r with
  | nil => cases hk
  | cons k0 rest ih =>
    by_cases hmem : k ∈ rest
    · simpa [insertAll] using ih (dictInsert k0 v r) hmem
    · have hk0 : k = k0 := by
        rcases List.mem_cons.mp hk with h | h
        · exact h
        · exact absurd h hmem
      subst hk0
      calc dictFind (insertAll v (k :: rest) r) k
          = dictFind (insertAll v rest (dictInsert k v r)) k := rfl
        _ = dictFind (dictInsert k v r) k := dictFind_insertAll_not_mem v rest _ k hmem
        _ = some v := dictFind_insert_self k v r

theorem dictFind_registerFile_mem (r : Registry) (f k : String) (hk : k ∈ aliasKeys f) :
    dictFind (registerFile r f) k = some (mkPath f) :=
  dictFind_insertAll_mem (mkPath f) (aliasKeys f) r k hk

theorem dictFind_registerFile_not_mem (r : Registry) (f k : String) (hk : k ∉ aliasKeys f) :
    dictFind (registerFile r f) k = dictFind r k :=
  dictFind_insertAll_not_mem (mkPath f) (aliasKeys f) r k hk

theorem dictFind_foldl_not_mem (files : List String) (r : Registry) (k : String)
    (h : ∀ f ∈ files, k ∉ aliasKeys f) :
    dictFind (files.foldl registerFile r) k = dictFind r k := by
  induction files generalizing r with
  | nil => rfl
  | cons f rest ih =>
    calc dictFind ((f :: rest).foldl registerFile r) k
        = dictFind (rest.foldl registerFile (registerFile r f)) k := rfl
      _ = dictFind (registerFile r f) k :=
          ih (registerFile r f) (fun f' hf' => h f' (List.mem_cons_of_mem _ hf'))
      _ = dictFind r k := dictFind_registerFile_not_mem r f k (h f (List.mem_cons_self _ _))

theorem dictFind_foldl_mem (files : List String) (r : Registry) (k f : String)
    (hnd : files.Nodup) (hf : f ∈ files) (hk : k ∈ aliasKeys f)
    (hother : ∀ f' ∈ files, f' ≠ f → k ∉ aliasKeys f') :
    dictFind (files.foldl registerFile r) k = some (mkPath f) := by
  induction files generalizing r with
  | nil => cases hf
  | cons g rest ih =>
    rcases List.mem_cons.mp hf with hgf | hfr
    · subst hgf
      have hnotrest : ∀ f' ∈ rest, k ∉ aliasKeys f' := by
        intro f' hf'
        have hne : f' ≠ f := by
          intro he; subst he
          exact (List.nodup_cons.mp hnd).1 hf'
        exact hother f' (List.mem_cons_of_mem _ hf') hne
      calc dictFind ((f :: rest).foldl registerFile r) k
          = dictFind (rest.foldl registerFile (registerFile r f)) k := rfl
        _ = dictFind (registerFile r f) k := dictFind_foldl_not_mem rest _ k hnotrest
        _ = some (mkPath f) := dictFind_registerFile_mem r f k hk
    · have hgne : g ≠ f := by
        intro he; subst he
        exact (List.nodup_cons.mp hnd).1 hfr
      exact ih (registerFile r g) (List.nodup_cons.mp hnd).2 hfr
        (fun f' hf' => hother f' (List.mem_cons_of_mem _ hf'))

theorem llama3SizeAliases_ne_empty (sl : String) : ∀ k ∈ llama3SizeAliases sl, k ≠ "" := by
  intro k hk
  unfold llama3SizeAliases at hk
  split at hk
  · simp only [List.mem_cons, List.not_mem_nil, or_false] at hk
    rcases hk with rfl | rfl <;> decide
  split at hk
  · simp only [List.mem_cons, List.not_mem_nil, or_false] at hk
    subst hk; decide
  split at hk
  · simp only [List.mem_cons, List.not_mem_nil, or_false] at hk
    subst hk; decide
  · cases hk

theorem familyAliases_ne_empty (sl : String) : ∀ k ∈ familyAliases sl, k ≠ "" := by
  intro k hk
  unfold familyAliases at hk
  simp only [List.mem_append] at hk
  rcases hk with ((((h | h) | h) | h) | h) | h
  · split at h
    · simp only [List.mem_cons, List.not_mem_nil, or_false] at h
      rcases h with rfl | rfl | rfl | rfl <;> decide
    · cases h
  · split at h
    · simp only [List.mem_cons, List.not_mem_nil, or_false] at h
      rcases h with rfl | rfl | rfl | rfl <;> decide
    · cases h
  · split at h
    · rcases List.mem_append.mp h with h2 | h2
      · simp only [List.mem_cons, List.not_mem_nil, or_false] at h2
        rcases h2 with rfl | rfl <;> decide
      · exact llama3SizeAliases_ne_empty sl k h2
    · cases h
  · split at h
    · simp only [List.mem_cons, List.not_mem_nil, or_false] at h
      rcases h with rfl | rfl | rfl | rfl <;> decide
    · cases h
  · split at h
    · simp only [List.mem_cons, List.not_mem_nil, or_false] at h
      rcases h with rfl | rfl | rfl <;> decide
    · cases h
  · split at h
    · simp only [List.mem_cons, List.not_mem_nil, or_false] at h
      rcases h with rfl | rfl | rfl | rfl <;> decide
    · cases h

theorem string_mk_ne_empty (l : List Char) (h : l ≠ []) : (⟨l⟩ : String) ≠ "" := by
  intro he
  exact h (congrArg String.data he)

theorem pathStem_data_ne (s : String) (hs : s.data ≠ []) : (pathStem s).data ≠ [] := by
  unfold pathStem
  split
  · split
    · rename_i hcond
      intro he
      exact hcond.1 (List.reverse_eq_nil_iff.mp he)
    · exact hs
  · exact hs

theorem lowerStr_data_ne (s : String) (hs : s.data ≠ []) : (lowerStr s).data ≠ [] := by
  intro he
  exact hs (List.map_eq_nil_iff.mp he)

theorem replaceChar_data_ne (a b : Char) (s : String) (hs : s.data ≠ []) :
    (replaceChar a b s).data ≠ [] := by
  intro he
  exact hs (List.map_eq_nil_iff.mp he)

theorem endsGguf_data_ne (s : String) (h : endsWithStr s ".gguf" = true) : s.data ≠ [] := by
  intro hn
  unfold endsWithStr at h
  rw [hn] at h
  exact absurd h (by decide)

theorem aliasKeys_ne_empty (f : String) (hf : f.data ≠ []) : ∀ k ∈ aliasKeys f, k ≠ "" := by
  intro k hk
  unfold aliasKeys at hk
  simp only [List.mem_cons] at hk
  rcases hk with rfl | rfl | rfl | rfl | hfam
  · exact fun he => hf (congrArg String.data he)
  · exact fun he => pathStem_data_ne f hf (congrArg String.data he)
  · exact fun he => lowerStr_data_ne _ (pathStem_data_ne f hf) (congrArg String.data he)
  · exact fun he =>
      replaceChar_data_ne '.' '_' _
        (replaceChar_data_ne '-' '_' _ (lowerStr_data_ne _ (pathStem_data_ne f hf)))
        (congrArg String.data he)
  · exact familyAliases_ne_empty _ k hfam

theorem scan_models_find_empty (old : Registry) (dir : List String) :
    dictFind (scan_models old dir) "" = none := by
  unfold scan_models
  rw [dictFind_foldl_not_mem]
  · rfl
  · intro f hf hk
    have hgg : endsWithStr f ".gguf" = true := (List.mem_filter.mp hf).2
    exact aliasKeys_ne_empty f (endsGguf_data_ne f hgg) "" hk rfl

theorem lowerStr_empty : lowerStr "" = "" := rfl

theorem listInfix_nil (l : List Char) : listInfix [] l = true := by
  induction l with
  | nil => rfl
  | cons c t ih => simp [listInfix, List.isPrefixOf, ih]

theorem strContains_empty_needle (hay : String) : strContains hay "" = true :=
  listInfix_nil hay.data

theorem resolve_empty_name (dir : List String) (r : Registry) (k p : String)
    (rest : Registry) (hr : r = (k, p) :: rest) (hfind : dictFind r "" = none) :
    get_model_path dir r "" = some p := by
  have hne : r ≠ [] := by rw [hr]; exact List.cons_ne_nil _ _
  have heff : effReg dir r = r := by unfold effReg; rw [if_neg hne]
  rw [get_model_path_eq, heff]
  have h1 : rule1 r "" = none := hfind
  have h2 : rule2 r "" = none := by unfold rule2; rw [lowerStr_empty]; exact hfind
  have h3 : rule3 r "" = none := by
    unfold rule3 nameVariations
    have hv : replaceChar ' ' '-' "" = "" := rfl
    have hv2 : replaceChar ' ' '_' "" = "" := rfl
    have hv3 : replaceChar '-' '_' "" = "" := rfl
    have hv4 : replaceChar '_' '-' "" = "" := rfl
    rw [hv, hv2, hv3, hv4]
    simp [tryVariations, lowerStr_empty, hfind]
  have h4 : rule4 r "" = none := by unfold rule4; rw [show strContains "" ":" = false from rfl]; rfl
  have h5 : rule5 r "" = some p := by
    unfold rule5
    rw [hr]
    unfold partialMatchLoop
    rw [lowerStr_empty, if_pos]
    rw [strContains_empty_needle (lowerStr k)]
    simp
  rw [h1, h2, h3, h4, h5]
  rfl

theorem runPoll_timeouts (p : String) (evs : List (PollEvent × Nat))
    (h : ∀ e ∈ evs, e.1 = PollEvent.timeout) :
    runPoll p { lines := [], emptyCount := 0 } evs
      = ({ lines := [], emptyCount := 0 }, false) := by
  induction evs with
  | nil => rfl
  | cons e rest ih =>
    obtain ⟨ev, t⟩ := e
    have he : ev = PollEvent.timeout := h (ev, t) (List.mem_cons_self _ _)
    subst he
    have hstep : stepEvent p { lines := [], emptyCount := 0 } PollEvent.timeout t
        = ({ lines := [], emptyCount := 0 }, false) := by
      simp [stepEvent]
    simp only [runPoll, hstep]
    exact ih (fun e he' => h e (List.mem_cons_of_mem _ he'))

theorem runPoll_third_blank (p : String) (st : GenState) (t : Nat)
    (rest : List (PollEvent × Nat)) (hp : stripStr p ≠ "") (hc : 2 ≤ st.emptyCount) :
    runPoll p st ((PollEvent.line "", t) :: rest)
      = ({ st with emptyCount := st.emptyCount + 1 }, true) := by
  have hstep : stepEvent p st (PollEvent.line "") t
      = ({ st with emptyCount := st.emptyCount + 1 }, true) := by
    have hse : stripStr "" = "" := rfl
    have h3 : 2 < st.emptyCount + 1 := by omega
    simp [stepEvent, hse, Ne.symm hp, h3]
  simp only [runPoll, hstep]

theorem stepEvent_line_budget (p : String) (st : GenState) (s : String) (t : Nat)
    (hs : stripStr s ≠ stripStr p) (ht : 300 < t) :
    (stepEvent p st (PollEvent.line s) t).2 = true := by
  simp only [stepEvent]
  rw [if_neg hs]
  split_ifs <;> simp_all

theorem oneShotProcess_fst (ls : List String) (h : ∀ l ∈ ls, l ≠ "") :
    (oneShotProcess ls).1 = streamedOf ls := by
  induction ls with
  | nil => rfl
  | cons l rest ih =>
    have hl : l ≠ "" := h l (List.mem_cons_self _ _)
    have ih' := ih (fun l' hm => h l' (List.mem_cons_of_mem _ hm))
    by_cases hk : keepLine (rstripStr l)
    · simp [oneShotProcess, streamedOf, hl, hk] at ih' ⊢
      exact ih'
    · simp [oneShotProcess, streamedOf, hl, hk] at ih' ⊢
      exact ih'

theorem optOrElse_none (a b : Option String) : (a <|> b) = none ↔ a = none ∧ b = none := by
  cases a <;> simp

theorem self_mem_aliasKeys (f : String) : f ∈ aliasKeys f := by
  unfold aliasKeys
  exact List.mem_cons_self _ _

/-- C1: claimed, two or more consecutive blank lines end the response and the
`["Hi", "", "", "there"]` + 3 s silence scenario excludes `"there"`.  False:
the loop breaks only when `empty_line_count > 2`, so two blanks do not end
the response; the scenario's response is closed by the 2-second idle gap and
equals `["Hi", "there"]`, containing the post-gap `"there"`. -/
theorem C1_counterexample : generateLines "User: hi" scenarioTrace = ["Hi", "there"] := by
  decide

/-- C1 (amended): three or more consecutive blank lines end the response
(once two blanks are counted, a further blank line breaks the loop at once,
ignoring all later queue events and keeping the lines collected so far); in
the spec's scenario the two blank lines do not end the response, which is
ended by the idle gap and is `["Hi", "there"]`. -/
theorem C1_blank_line_heuristic :
    (∀ (p : String) (st : GenState) (t : Nat) (rest : List (PollEvent × Nat)),
        stripStr p ≠ "" → 2 ≤ st.emptyCount →
        runPoll p st ((PollEvent.line "", t) :: rest)
          = ({ st with emptyCount := st.emptyCount + 1 }, true)) ∧
    generateLines "User: hi" scenarioTrace = ["Hi", "there"] :=
  ⟨fun p st t rest hp hc => runPoll_third_blank p st t rest hp hc, by decide⟩

/-- C1 witness: the amended theorem applied at a concrete state with two
counted blanks and a nonblank prompt. -/
theorem C1_blank_line_heuristic_witness :
    runPoll "User: hi" { lines := ["Hi"], emptyCount := 2 } [(PollEvent.line "", 3)]
      = ({ lines := ["Hi"], emptyCount := 3 }, true) :=
  C1_blank_line_heuristic.1 "User: hi" { lines := ["Hi"], emptyCount := 2 } 3 []
    (by decide) (by decide)

/-- C2: claimed, the poll loop terminates on every event sequence because a
~30 s budget forcibly ends the response.  False: with an output queue that
stays empty forever (child produces no output), 400 consecutive empty polls
spanning 40 seconds leave the loop still running — the budget check only
runs after a successful queue read, and the idle-gap break requires at least
one collected line. -/
theorem C2_counterexample :
    runPoll "p" { lines := [], emptyCount := 0 } silentTrace
      = ({ lines := [], emptyCount := 0 }, false) := by
  decide

/-- C2 (amended): the ~30 s wall-clock budget forcibly ends the response at
the next successfully read non-echo line once it has elapsed, regardless of
the blank-line state; but it never fires on empty polls, so a queue that
stays empty forever with no collected line never terminates the loop. -/
theorem C2_budget_scope :
    (∀ (p : String) (st : GenState) (s : String) (t : Nat),
        stripStr s ≠ stripStr p → 300 < t →
        (stepEvent p st (PollEvent.line s) t).2 = true) ∧
    (∀ (p : String) (evs : List (PollEvent × Nat)),
        (∀ e ∈ evs, e.1 = PollEvent.timeout) →
        runPoll p { lines := [], emptyCount := 0 } evs
          = ({ lines := [], emptyCount := 0 }, false)) :=
  ⟨stepEvent_line_budget, runPoll_timeouts⟩

/-- C2 witness: the amended theorem applied at a concrete over-budget line
poll and a concrete all-timeout trace. -/
theorem C2_budget_scope_witness :
    (stepEvent "p" { lines := [], emptyCount := 0 } (PollEvent.line "x") 301).2 = true ∧
    runPoll "p" { lines := [], emptyCount := 0 } [(PollEvent.timeout, 500)]
      = ({ lines := [], emptyCount := 0 }, false) :=
  ⟨C2_budget_scope.1 "p" { lines := [], emptyCount := 0 } "x" 301 (by decide) (by decide),
   C2_budget_scope.2 "p" [(PollEvent.timeout, 500)] (by
     intro e he
     simp only [List.mem_singleton] at he
     subst he
     rfl)⟩

/-- C3: `get_model_path` is exactly the strict-order chain of the six
resolution rules, first success returned immediately; it is not-found only
when all six rules fail; and an empty registry triggers a scan first. -/
theorem C3_resolution_rule_order :
    (∀ (dir : List String) (reg : Registry) (name : String),
        get_model_path dir reg name =
          (rule1 (effReg dir reg) name <|> rule2 (effReg dir reg) name <|>
           rule3 (effReg dir reg) name <|> rule4 (effReg dir reg) name <|>
           rule5 (effReg dir reg) name <|> rule6 dir name)) ∧
    (∀ (dir : List String) (reg : Registry) (name : String),
        get_model_path dir reg name = none ↔
          (rule1 (effReg dir reg) name = none ∧ rule2 (effReg dir reg) name = none ∧
           rule3 (effReg dir reg) name = none ∧ rule4 (effReg dir reg) name = none ∧
           rule5 (effReg dir reg) name = none ∧ rule6 dir name = none)) ∧
    (∀ dir : List String, effReg dir [] = scan_models [] dir) := by
  refine ⟨get_model_path_eq, fun dir reg name => ?_, fun dir => rfl⟩
  rw [get_model_path_eq dir reg name]
  simp only [optOrElse_none, and_assoc]

/-- C4: claimed, scan-then-resolve with the exact filename of any scanned
artifact returns that file's path, for every directory contents.  False: in
a directory holding both `a.gguf` and `a.gguf.gguf`, the second file's stem
alias `a.gguf` overwrites the first file's filename alias, so resolving
`a.gguf` returns the other file's path. -/
theorem C4_counterexample :
    get_model_path ["a.gguf", "a.gguf.gguf"]
        (scan_models [] ["a.gguf", "a.gguf.gguf"]) "a.gguf"
      = some (mkPath "a.gguf.gguf") ∧
    mkPath "a.gguf.gguf" ≠ mkPath "a.gguf" := by
  decide

/-- C4 (amended): the round-trip holds for every directory in which no other
scanned file registers an alias equal to the artifact's exact filename. -/
theorem C4_exact_filename_roundtrip (r0 : Registry) (dir : List String) (f : String)
    (hnd : dir.Nodup) (hf : f ∈ dir) (hgg : endsWithStr f ".gguf" = true)
    (hcol : ∀ f' ∈ dir, f' ≠ f → endsWithStr f' ".gguf" = true → f ∉ aliasKeys f') :
    get_model_path dir (scan_models r0 dir) f = some (mkPath f) := by
  have hfiles : f ∈ dir.filter (fun g => endsWithStr g ".gguf") :=
    List.mem_filter.mpr ⟨hf, hgg⟩
  have hndf : (dir.filter (fun g => endsWithStr g ".gguf")).Nodup := hnd.filter _
  have hother : ∀ f' ∈ dir.filter (fun g => endsWithStr g ".gguf"), f' ≠ f →
      f ∉ aliasKeys f' := by
    intro f' hf' hne
    exact hcol f' (List.mem_filter.mp hf').1 hne (List.mem_filter.mp hf').2
  have hfind : dictFind (scan_models r0 dir) f = some (mkPath f) := by
    unfold scan_models
    exact dictFind_foldl_mem _ [] f f hndf hfiles (self_mem_aliasKeys f) hother
  have hne : scan_models r0 dir ≠ [] := by
    intro he
    rw [he] at hfind
    exact Option.noConfusion hfind
  have heff : effReg dir (scan_models r0 dir) = scan_models r0 dir := by
    unfold effReg
    rw [if_neg hne]
  have h1 : rule1 (scan_models r0 dir) f = some (mkPath f) := hfind
  rw [get_model_path_eq, heff, h1]
  rfl

/-- C4 witness: the amended round-trip at a concrete one-file directory. -/
theorem C4_exact_filename_roundtrip_witness :
    get_model_path ["a.gguf"] (scan_models [] ["a.gguf"]) "a.gguf"
      = some (mkPath "a.gguf") :=
  C4_exact_filename_roundtrip [] ["a.gguf"] "a.gguf" (by decide) (by decide) (by decide)
    (by
      intro f' hf' hne hg
      simp only [List.mem_singleton] at hf'
      subst hf'
      exact absurd rfl hne)

/-- C5: both scans rebuild the registry from scratch — the result never
depends on the pre-scan registry — hence two consecutive scans of an
unchanged directory produce identical alias mappings. -/
theorem C5_scan_pure_idempotent :
    (∀ (r1 r2 : Registry) (dir : List String), scan_models r1 dir = scan_models r2 dir) ∧
    (∀ (r : Registry) (dir : List String),
        scan_models (scan_models r dir) dir = scan_models r dir) ∧
    (∀ (r1 r2 : Registry) (dir : List String),
        scan_models_v2 r1 dir = scan_models_v2 r2 dir) ∧
    (∀ (r : Registry) (dir : List String),
        scan_models_v2 (scan_models_v2 r dir) dir = scan_models_v2 r dir) :=
  ⟨fun _ _ _ => rfl, fun _ _ => rfl, fun _ _ _ => rfl, fun _ _ => rfl⟩

/-- C6: in streaming mode the one-shot runner yields exactly the child's
lines in arrival order, `rstrip`ped, with only `system_info:`/`main:`
banner lines dropped and a newline appended — the hypothesis states that
the raw lines are nonempty, which is true of every `readline` result before
the `""` EOF sentinel.  The spec's scenario (child emits
`["system_info: x", "Hello", "world"]`, newline-terminated on the wire)
yields `["Hello\n", "world\n"]`; a blank child line is NOT filtered: it is
yielded as `"\n"`. -/
theorem C6_one_shot_streaming :
    (∀ outLines : List String, (∀ l ∈ outLines, l ≠ "") → ∀ ec : Int,
        run_llama_generation LaunchResult.ok outLines ec true = streamedOf outLines) ∧
    run_llama_generation LaunchResult.ok ["system_info: x\n", "Hello\n", "world\n"] 0 true
      = ["Hello\n", "world\n"] ∧
    run_llama_generation LaunchResult.ok ["Hello\n", "\n", "world\n"] 0 true
      = ["Hello\n", "\n", "world\n"] :=
  ⟨fun outLines h _ => oneShotProcess_fst outLines h, by decide, by decide⟩

/-- C6 witness: the general streaming equality applied at the spec's
concrete scenario trace, discharging the nonempty-raw-lines hypothesis. -/
theorem C6_one_shot_streaming_witness :
    run_llama_generation LaunchResult.ok ["system_info: x\n", "Hello\n", "world\n"] 0 true
      = streamedOf ["system_info: x\n", "Hello\n", "world\n"] :=
  C6_one_shot_streaming.1 ["system_info: x\n", "Hello\n", "world\n"] (by decide) 0

/-- C7: a launch failure of the one-shot runner yields the single in-band
`Error:` chunk (never an exception past the sequence), and the child's exit
code has no effect on the yielded chunks — delivered output is never
retracted. -/
theorem C7_one_shot_error_handling :
    (∀ (msg : String) (outLines : List String) (ec : Int) (stream : Bool),
        run_llama_generation (LaunchResult.failure msg) outLines ec stream
          = ["Error: " ++ msg]) ∧
    (∀ (outLines : List String) (stream : Bool) (ec1 ec2 : Int),
        run_llama_generation LaunchResult.ok outLines ec1 stream
          = run_llama_generation LaunchResult.ok outLines ec2 stream) :=
  ⟨fun _ _ _ _ => rfl, fun _ _ _ _ => rfl⟩

/-- C8: when resolution fails, `get_or_create_session` returns `None` with
the session table unchanged (no session is created or started), and the v2
`chat` route answers not-found without running any generation. -/
theorem C8_not_found_no_session (dir : List String) (reg : Registry) (tbl : SessionTable)
    (name : String) (h : get_model_path dir reg name = none) :
    get_or_create_session dir reg tbl name = (none, tbl) ∧
    ∀ (launch : LaunchResult) (outLines : List String) (ec : Int) (stream : Bool),
      chatRespond dir reg name launch outLines ec stream = ChatOutcome.notFound := by
  constructor
  · unfold get_or_create_session
    rw [h]
  · intro launch outLines ec stream
    unfold chatRespond
    rw [h]

/-- C8 witness: a concrete unresolvable name against empty directory,
registry and session table. -/
theorem C8_not_found_no_session_witness :
    get_or_create_session [] [] [] "unknown-model" = (none, ([] : SessionTable)) ∧
    chatRespond [] [] "unknown-model" LaunchResult.ok [] 0 true = ChatOutcome.notFound :=
  ⟨(C8_not_found_no_session [] [] [] "unknown-model" (by decide)).1,
   (C8_not_found_no_session [] [] [] "unknown-model" (by decide)).2
     LaunchResult.ok [] 0 true⟩

/-- C9: on any non-empty scanned registry, resolving the empty string never
reaches not-found: rules 1-4 miss (the scan registers no empty alias), and
rule 5's bidirectional substring match accepts the first registry entry, so
the first alias's path is returned. -/
theorem C9_empty_name_resolves (dir : List String) (r0 : Registry) (k p : String)
    (rest : Registry) (h : scan_models r0 dir = (k, p) :: rest) :
    get_model_path dir (scan_models r0 dir) "" = some p :=
  resolve_empty_name dir (scan_models r0 dir) k p rest h (scan_models_find_empty r0 dir)

/-- C9 witness: a concrete one-file directory; the empty name resolves to
the first registry entry's path. -/
theorem C9_empty_name_resolves_witness :
    get_model_path ["a.gguf"] (scan_models [] ["a.gguf"]) "" = some (mkPath "a.gguf") :=
  C9_empty_name_resolves ["a.gguf"] [] "a.gguf" (mkPath "a.gguf")
    [("a", mkPath "a.gguf")] (by decide)

/-- C10: a name whose lowercase form contains `embed` or `minilm` makes
`pull_model` succeed for every directory and registry — including empty ones,
so no registry consultation or file-existence check is involved; every other
name succeeds exactly when `get_model_path` resolves it. -/
theorem C10_pull_embedding_bypass :
    (∀ (dir : List String) (reg : Registry) (name : String),
        (strContains (lowerStr name) "embed" || strContains (lowerStr name) "minilm") = true →
        pull_model dir reg name = PullOutcome.success) ∧
    (∀ (dir : List String) (reg : Registry) (name : String),
        (strContains (lowerStr name) "embed" || strContains (lowerStr name) "minilm") = false →
        (pull_model dir reg name = PullOutcome.success ↔
          (get_model_path dir reg name).isSome = true)) := by
  constructor
  · intro dir reg name h
    unfold pull_model
    rw [if_pos h]
  · intro dir reg name h
    unfold pull_model
    rw [if_neg (by simp [h])]
    cases hm : get_model_path dir reg name <;> simp [hm]

/-- C10 witness: the simulated embedding model succeeds against an empty
registry and directory; a non-embedding name obeys the resolution
equivalence. -/
theorem C10_pull_embedding_bypass_witness :
    pull_model [] [] "nomic-embed-text" = PullOutcome.success ∧
    (pull_model [] [] "qwen" = PullOutcome.success ↔
      (get_model_path [] [] "qwen").isSome = true) :=
  ⟨C10_pull_embedding_bypass.1 [] [] "nomic-embed-text" (by decide),
   C10_pull_embedding_bypass.2 [] [] "qwen" (by decide)⟩
